import Mathlib

/-!
Verification of the `commandapp.py` command-line dispatcher.

The program builds a tree of command nodes:
* `CommandMenuNode` — an internal node holding an ordered list of child nodes
  (`self.commands`); `parse_args` matches the first token against child names
  case-insensitively, pops it off the shared argument list and recurses.
* `CommandOptionHandler` — a leaf; `parse_args` on an empty token list prints a
  usage banner and returns 0, otherwise hands the tokens to the external
  `pyargs` parsing engine and invokes the abstract `handle_command`.
* `CommandApp` — the root, a `CommandMenuNode` with an extra banner on an empty
  token list.

Modelling conventions:
* Printed lines become values of the `Output` inductive, collected in order.
* A Python function that may fall off the end without `return` yields
  `Option Int` (`none` is Python's `None`); raised exceptions become
  `Except PyErr`.
* The external `pyargs` engine and `columnizer` formatter are black boxes: a
  handler node carries its `parse` function (the engine applied to the
  handler's registered schema) as an opaque function field, and the formatted
  menu text is the structured event `Output.menuListing rows`.
* The in-place mutation of the shared `args` list (`args.pop(0)`) is modelled
  by state passing: `RunResult.argsAfter` is the final value of the caller's
  list object.  The receiver's own post-dispatch state is `RunResult.selfAfter`
  (the source never writes a field of `self` during dispatch, and the matched
  child's post-state replaces it inside `commands`).
-/

/-- Python-level exceptions the dispatcher can raise: `NotImplementedError`
from the abstract `setup`/`handle_command`, the `TypeError` of a Python 2
unbound-method call whose first argument is not an instance of the class, a
`NameError` for an unbound local, and whatever error the external `pyargs`
engine reports for malformed option tokens. -/
inductive PyErr where
  | notImplemented
  | typeError
  | nameError
  | parseFailure (msg : String)
deriving Repr, DecidableEq

/-- One `print` statement of the dispatcher, as a structured event.
`appBanner d` is the line `"%s %s" % (appname, d)` and `usageLine r` the line
`"%s [options] %s" % (appname, r)`; the program name `appname` is read from
`inspect.stack()` (the process environment) and is outside the model.
`separator` is the `"-" * 40` line, `menuListing rows` the `columnizer`-
formatted table of `(command_name, description)` rows, `notFound t` the line
`"Could not find the command '%s'" % t`, and `optionSchemaListing` the option
table printed by the external `pyargs.PyArgs.print_menu`. -/
inductive Output where
  | menuListing (rows : List (String × String))
  | appBanner (description : String)
  | separator
  | notFound (token : String)
  | usageLine (remainder_description : String)
  | optionSchemaListing
deriving Repr, DecidableEq

/-- A node of the command tree: either a `CommandMenuNode` (with its
`command_name`, `description`, `remainder` and ordered `commands` children) or
a `CommandOptionHandler` leaf.  A handler carries the external `pyargs` engine
already applied to its registered option schema (`parse`, returning the
`(options, remainders)` pair or raising) and its `handle_command`
implementation (which may return `None`, an exit code, or raise). -/
inductive Node where
  | menu (command_name : String) (description : String) (remainder : String)
         (commands : List Node)
  | handler (command_name : String) (description : String)
            (remainder_description : String)
            (parse : List String → Except PyErr (List (String × String) × List String))
            (handle_command : List (String × String) → List String → Except PyErr (Option Int))

/-- The `command_name` field of a node. -/
def Node.command_name : Node → String
  | .menu nm _ _ _ => nm
  | .handler nm _ _ _ _ => nm

/-- The `description` field of a node. -/
def Node.description : Node → String
  | .menu _ ds _ _ => ds
  | .handler _ ds _ _ _ => ds

/-- Model of Python's `str.lower()`: lowercase each character.  (Defined
per-character over `String.data` so that it reduces definitionally; for the
ASCII command names of this program it agrees with `str.lower`.) -/
def pyLower (s : String) : String := ⟨s.data.map Char.toLower⟩

/-- The rows built by `CommandMenuNode.print_menu`:
`rows.append([cmd.command_name, cmd.description])` for each child in order. -/
def menuRows (cmds : List Node) : List (String × String) :=
  cmds.map fun c => (c.command_name, c.description)

/-- The `found_cmd` loop of `CommandMenuNode.parse_args`, with Python's `break`
semantics, returning the final values of both locals as indices into the list:
the first component is `found_cmd` (the index of the first case-insensitive
match, or `none`), the second is the loop variable `cmd` (the index at which
the loop stopped: the match on `break`, the last element when the loop ran to
completion, `none` when the list is empty and `cmd` stays unbound). -/
def findIndexLoop : List Node → String → Option Nat × Option Nat
  | [], _ => (none, none)
  | c :: rest, tok =>
    if pyLower c.command_name = pyLower tok then
      (some 0, some 0)
    else
      match findIndexLoop rest tok with
      | (f, some j) => (f.map (· + 1), some (j + 1))
      | (f, none) => (f.map (· + 1), some 0)

/-- The observable outcome of one `parse_args` call: the returned value
(`none` is Python's `None`, errors are uncaught exceptions), the final state
`argsAfter` of the caller's shared `args` list (mutated in place by
`args.pop(0)`), the printed output in order, the number of times a
`handle_command` implementation was invoked, and the post-dispatch state
`selfAfter` of the receiver node. -/
structure RunResult where
  ret : Except PyErr (Option Int)
  argsAfter : List String
  out : List Output
  handleCalls : Nat
  selfAfter : Node

/-- Shallow embedding of `parse_args`, dispatching on the node kind.

`CommandOptionHandler.parse_args`: on an empty list print the usage banner via
`print_menu` and return 0; otherwise `options, remainders = self.parse(args)`
(a parse failure propagates as an exception without reaching
`handle_command`), then `return self.handle_command(options, remainders)`.

`CommandMenuNode.parse_args`: on an empty list `print_menu` and return 0;
otherwise run the `found_cmd` loop, and if a match was found `args.pop(0)`
and `return cmd.parse_args(args)` — note the source recurses through the loop
variable `cmd`, not `found_cmd`, which is faithfully kept here as the second
component of `findIndexLoop` (the two branches that would leave `cmd` unbound
or dangling are unreachable, modelled as a `NameError`); with no match print
the not-found message and return -1. -/
def Node.parse_args (node : Node) (args : List String) : RunResult :=
  match node with
  | .handler nm ds rds parse handle =>
    match args with
    | [] =>
      { ret := .ok (some 0), argsAfter := [],
        out := [.usageLine rds, .separator, .optionSchemaListing],
        handleCalls := 0, selfAfter := .handler nm ds rds parse handle }
    | a0 :: rest =>
      match parse (a0 :: rest) with
      | .error e =>
        { ret := .error e, argsAfter := a0 :: rest, out := [],
          handleCalls := 0, selfAfter := .handler nm ds rds parse handle }
      | .ok (options, remainders) =>
        { ret := handle options remainders, argsAfter := a0 :: rest, out := [],
          handleCalls := 1, selfAfter := .handler nm ds rds parse handle }
  | .menu nm ds rm cmds =>
    match args with
    | [] =>
      { ret := .ok (some 0), argsAfter := [],
        out := [.menuListing (menuRows cmds)],
        handleCalls := 0, selfAfter := .menu nm ds rm cmds }
    | a0 :: rest =>
      match hf : findIndexLoop cmds a0 with
      | (some _, some j) =>
        match hj : cmds[j]? with
        | some c =>
          let r := Node.parse_args c rest
          { ret := r.ret, argsAfter := r.argsAfter, out := r.out,
            handleCalls := r.handleCalls,
            selfAfter := .menu nm ds rm (cmds.set j r.selfAfter) }
        | none =>
          { ret := .error .nameError, argsAfter := a0 :: rest, out := [],
            handleCalls := 0, selfAfter := .menu nm ds rm cmds }
      | (some _, none) =>
        { ret := .error .nameError, argsAfter := a0 :: rest, out := [],
          handleCalls := 0, selfAfter := .menu nm ds rm cmds }
      | (none, _) =>
        { ret := .ok (some (-1)), argsAfter := a0 :: rest,
          out := [.notFound a0], handleCalls := 0, selfAfter := .menu nm ds rm cmds }
termination_by sizeOf node
decreasing_by
  have hmem : c ∈ cmds := by
    have hlt : j < cmds.length := (List.getElem?_eq_some.mp hj).1
    have : cmds[j] = c := by
      have := (List.getElem?_eq_some.mp hj).2
      exact this
    exact this ▸ List.getElem_mem hlt
  have h1 : sizeOf c < sizeOf cmds := List.sizeOf_lt_of_mem hmem
  simp only [Node.menu.sizeOf_spec]
  omega

/-- The root of the tree: `CommandApp` is a `CommandMenuNode` constructed with
`command_name = ""` (and default `remainder = ""`), plus an app-level
`description` used for the banner. -/
structure CommandApp where
  description : String
  commands : List Node

/-- The `CommandApp` viewed as the `CommandMenuNode` it inherits from. -/
def CommandApp.asNode (app : CommandApp) : Node :=
  .menu "" app.description "" app.commands

/-- Shallow embedding of `CommandApp.parse_args`: on an empty token list it
prints `"%s %s" % (appname, self.description)`, the `"-" * 40` separator and
the menu, then falls off the end of the function — so it returns Python's
`None`, not an exit code.  On a non-empty list it returns
`CommandMenuNode.parse_args(self, args)` unchanged. -/
def CommandApp.parse_args (app : CommandApp) (args : List String) : RunResult :=
  match args with
  | [] =>
    { ret := .ok none, argsAfter := [],
      out := [.appBanner app.description, .separator,
              .menuListing (menuRows app.commands)],
      handleCalls := 0, selfAfter := app.asNode }
  | a0 :: rest => Node.parse_args app.asNode (a0 :: rest)

/-- One option schema entry, as registered with the external engine by
`pyargs.PyArgsOption(shortname, longname, allowedvalues, description)`. -/
structure PyArgsOption where
  shortname : String
  longname : String
  allowedvalues : List String
  description : String
deriving Repr, DecidableEq

/-- The state of a `CommandOptionHandler` instance after `__init__` has set
its fields: the three constructor arguments plus the option schema accumulated
by `add_option` calls (the `pyargs.PyArgs` state, initially empty). -/
structure HandlerState where
  command_name : String
  description : String
  remainder_description : String
  options : List PyArgsOption
deriving Repr, DecidableEq

/-- A concrete subclass of `CommandOptionHandler`, given by the two methods it
may override.  `none` means the subclass did not override the method, so the
base-class body (which raises `NotImplementedError`) runs. -/
structure HandlerImpl where
  setup : Option (HandlerState → HandlerState)
  handle_command : Option (List (String × String) → List String → Except PyErr (Option Int))

/-- The base-class `CommandOptionHandler.handle_command`: raises
`NotImplementedError`. -/
def CommandOptionHandler.handle_command_base :
    List (String × String) → List String → Except PyErr (Option Int) :=
  fun _ _ => .error .notImplemented

/-- The method actually bound to `self.handle_command`: the override when the
subclass has one, otherwise the base-class body. -/
def HandlerImpl.handleEff (impl : HandlerImpl) :
    List (String × String) → List String → Except PyErr (Option Int) :=
  impl.handle_command.getD CommandOptionHandler.handle_command_base

/-- Shallow embedding of `CommandOptionHandler.__init__`: it runs
`pyargs.PyArgs.__init__` (empty schema), stores the three arguments, and then
calls `self.setup()` exactly once.  With no override, the base `setup` raises
`NotImplementedError` at construction; with an override `f`, the resulting
instance state is `f` applied once to the freshly initialised state. -/
def CommandOptionHandler.init (impl : HandlerImpl) (command_name : String)
    (description : String) (remainder_description : String) :
    Except PyErr HandlerState :=
  let st : HandlerState :=
    { command_name := command_name, description := description,
      remainder_description := remainder_description, options := [] }
  match impl.setup with
  | none => .error .notImplemented
  | some f => .ok (f st)

/-- A Python value, as far as the unbound-method call in
`CommandOptionApp.__init__` needs to distinguish: a string or a
`CommandOptionHandler` instance. -/
inductive PyValue where
  | str (s : String)
  | inst (st : HandlerState)
deriving Repr, DecidableEq

/-- Python 2 semantics of calling the unbound method
`CommandOptionHandler.__init__(x, a, b)`: the first positional argument lands
in the `self` slot and must be an instance of the class, otherwise the call
raises `TypeError` before the body runs. -/
def CommandOptionHandler.init_unbound (impl : HandlerImpl) (self_ : PyValue)
    (command_name : String) (description : String)
    (remainder_description : String) : Except PyErr HandlerState :=
  match self_ with
  | .inst _ => CommandOptionHandler.init impl command_name description remainder_description
  | .str _ => .error .typeError

/-- The overrides provided by `CommandOptionApp`: both `setup` and
`handle_command` are concrete with body `pass` (do nothing, return `None`). -/
def commandOptionAppImpl : HandlerImpl :=
  { setup := some id,
    handle_command := some (fun _ _ => .ok none) }

/-- Shallow embedding of `CommandOptionApp.__init__(self, command_name,
description = "", remainder_description = "")`: the body is
`CommandOptionHandler.__init__(command_name, description,
remainder_description)` — an unbound call that forgets `self`, so the string
`command_name` arrives in the `self` slot, `description` in the
`command_name` slot, `remainder_description` in the `description` slot, and
the last parameter takes its default `""`. -/
def CommandOptionApp.init (command_name : String) (description : String)
    (remainder_description : String) : Except PyErr HandlerState :=
  CommandOptionHandler.init_unbound commandOptionAppImpl (.str command_name)
    description remainder_description ""

/-- The `setup` override of `CommandPrettyCommand`: registers the `-a`
(`--address`) option and the `-b` (`--bloodtype`) option with its
allowed-value set. -/
def prettySetup (st : HandlerState) : HandlerState :=
  { st with options := st.options ++
      [{ shortname := "a", longname := "address", allowedvalues := [],
         description := "address for the the users, perhaps their real names as well." },
       { shortname := "b", longname := "bloodtype",
         allowedvalues := ["a", "b", "a+", "a-", "ab+", "ab-", "o", "o+", "o-"],
         description := "bloodtype of the users." }] }

/-- The overrides of `CommandPrettyCommand`: `setup` registers the two
options; `handle_command` prints the parsed options (application-level output,
outside the dispatch core) and returns 0. -/
def prettyImpl : HandlerImpl :=
  { setup := some prettySetup,
    handle_command := some (fun _ _ => .ok (some 0)) }

/-- The `CommandPrettyCommand` leaf as a tree node, parameterised by the
external `pyargs` engine applied to its registered schema. -/
def prettyNode
    (parse : List String → Except PyErr (List (String × String) × List String)) : Node :=
  .handler "pretty" "This command is meant to look pretty."
    "remainders description here." parse (fun _ _ => .ok (some 0))

/-- The `handler` variable of the `__main__` block. -/
def exampleHandler : Node := .menu "a" "does things that a's do." "" []

/-- The `handler2` variable of the `__main__` block. -/
def exampleHandler2 : Node := .menu "b" "what does a b do anyway?" "" []

/-- The `handler4` variable of the `__main__` block. -/
def exampleHandler4 : Node := .menu "level4" "skips to level4" "" []

/-- The `handler5` variable of the `__main__` block, after `handler6` (the
`CommandPrettyCommand`) has been added to it. -/
def exampleHandler5
    (parse : List String → Except PyErr (List (String × String) × List String)) : Node :=
  .menu "level5" "skips to level4" "" [prettyNode parse]

/-- The `handler3` variable of the `__main__` block, after `handler4` and
`handler5` have been added to it. -/
def exampleHandler3
    (parse : List String → Except PyErr (List (String × String) × List String)) : Node :=
  .menu "delete" "does what delete does." "" [exampleHandler4, exampleHandler5 parse]

/-- The tree wired up in the `__main__` block: the app with children `"a"`,
`"b"` and `"delete"`; `"delete"` has children `"level4"` and `"level5"`;
`"level5"` holds the `CommandPrettyCommand` leaf. -/
def exampleApp
    (parse : List String → Except PyErr (List (String × String) × List String)) :
    CommandApp :=
  { description := "This is a simple taste of a command line app.",
    commands := [exampleHandler, exampleHandler2, exampleHandler3 parse] }

/-- The number of menu levels a dispatch descends through: each successful
child match costs one `args.pop(0)` before recursing; reaching a leaf, an
empty token list, or an unmatched token stops the descent. -/
def Node.descendDepth (node : Node) (args : List String) : Nat :=
  match node with
  | .handler _ _ _ _ _ => 0
  | .menu _ _ _ cmds =>
    match args with
    | [] => 0
    | a0 :: rest =>
      match findIndexLoop cmds a0 with
      | (some _, some j) =>
        match hj : cmds[j]? with
        | some c => Node.descendDepth c rest + 1
        | none => 0
      | (some _, none) => 0
      | (none, _) => 0
termination_by sizeOf node
decreasing_by
  have hmem : c ∈ cmds := by
    have hlt : j < cmds.length := (List.getElem?_eq_some.mp hj).1
    have : cmds[j] = c := (List.getElem?_eq_some.mp hj).2
    exact this ▸ List.getElem_mem hlt
  have h1 : sizeOf c < sizeOf cmds := List.sizeOf_lt_of_mem hmem
  simp only [Node.menu.sizeOf_spec]
  omega

/-! ### Invariants of the matching loop -/

theorem findIndexLoop_spec (tok : String) :
    ∀ (cmds : List Node) (i : Nat), (findIndexLoop cmds tok).1 = some i →
      findIndexLoop cmds tok = (some i, some i) ∧ i < cmds.length := by
  intro cmds
  induction cmds with
  | nil => intro i h; simp [findIndexLoop] at h
  | cons c rest ih =>
    intro i h
    by_cases hc : pyLower c.command_name = pyLower tok
    · simp only [findIndexLoop, if_pos hc] at h ⊢
      cases h
      exact ⟨rfl, by simp⟩
    · simp only [findIndexLoop, if_neg hc] at h ⊢
      cases hrest : findIndexLoop rest tok with
      | mk f s =>
        rw [hrest] at h
        cases s with
        | some j =>
          cases f with
          | none => simp at h
          | some k =>
            obtain ⟨hk, hlt⟩ := ih k (by simp [hrest])
            rw [hrest] at hk
            have hjk : j = k := by
              have h2 := congrArg Prod.snd hk
              simpa using h2
            subst hjk
            have hik : i = j + 1 := by simpa using h.symm
            subst hik
            exact ⟨by simp, by simp; omega⟩
        | none =>
          cases f with
          | none => simp at h
          | some k =>
            obtain ⟨hk, hlt⟩ := ih k (by simp [hrest])
            rw [hrest] at hk
            exact absurd (congrArg Prod.snd hk) (by simp)

theorem findIndexLoop_fst_none (tok : String) :
    ∀ (cmds : List Node),
      (∀ c ∈ cmds, pyLower c.command_name ≠ pyLower tok) →
      (findIndexLoop cmds tok).1 = none := by
  intro cmds
  induction cmds with
  | nil => intro _; simp [findIndexLoop]
  | cons c rest ih =>
    intro hno
    have hc : pyLower c.command_name ≠ pyLower tok := hno c (by simp)
    have hr := ih (fun d hd => hno d (by simp [hd]))
    simp only [findIndexLoop, if_neg hc]
    cases hrest : findIndexLoop rest tok with
    | mk f s =>
      rw [hrest] at hr
      cases s <;> simp_all

theorem findIndexLoop_of_first_match (tok : String) :
    ∀ (cmds : List Node) (j : Nat) (c : Node),
      cmds[j]? = some c →
      pyLower c.command_name = pyLower tok →
      (∀ k d, k < j → cmds[k]? = some d → pyLower d.command_name ≠ pyLower tok) →
      findIndexLoop cmds tok = (some j, some j) := by
  intro cmds
  induction cmds with
  | nil => intro j c hj; simp at hj
  | cons c0 rest ih =>
    intro j c hj hmatch hmin
    cases j with
    | zero =>
      simp only [List.getElem?_cons_zero, Option.some.injEq] at hj
      subst hj
      simp [findIndexLoop, hmatch]
    | succ j' =>
      have hc0 : pyLower c0.command_name ≠ pyLower tok :=
        hmin 0 c0 (by omega) (by simp)
      have hrec := ih j' c (by simpa using hj) hmatch
        (fun k d hk hkd => hmin (k + 1) d (by omega) (by simpa using hkd))
      simp only [findIndexLoop, if_neg hc0, hrec]
      simp

/-! ### Unfolding lemmas for the branches of parse_args -/

theorem list_set_getElem?_self {α : Type} :
    ∀ (l : List α) (j : Nat) (a : α), l[j]? = some a → l.set j a = l := by
  intro l
  induction l with
  | nil => intro j a h; simp at h
  | cons x xs ih =>
    intro j a h
    cases j with
    | zero =>
      simp only [List.getElem?_cons_zero, Option.some.injEq] at h
      subst h
      simp
    | succ j' =>
      simp only [List.getElem?_cons_succ] at h
      simp [ih j' a h]

theorem parse_args_menu_nil (nm ds rm : String) (cmds : List Node) :
    Node.parse_args (.menu nm ds rm cmds) [] =
      { ret := .ok (some 0), argsAfter := [], out := [.menuListing (menuRows cmds)],
        handleCalls := 0, selfAfter := .menu nm ds rm cmds } := by
  simp [Node.parse_args]

theorem parse_args_handler_nil (nm ds rds : String)
    (parse : List String → Except PyErr (List (String × String) × List String))
    (handle : List (String × String) → List String → Except PyErr (Option Int)) :
    Node.parse_args (.handler nm ds rds parse handle) [] =
      { ret := .ok (some 0), argsAfter := [],
        out := [.usageLine rds, .separator, .optionSchemaListing],
        handleCalls := 0, selfAfter := .handler nm ds rds parse handle } := by
  simp [Node.parse_args]

theorem parse_args_handler_cons_error (nm ds rds : String)
    (parse : List String → Except PyErr (List (String × String) × List String))
    (handle : List (String × String) → List String → Except PyErr (Option Int))
    (a0 : String) (rest : List String) (e : PyErr)
    (h : parse (a0 :: rest) = .error e) :
    Node.parse_args (.handler nm ds rds parse handle) (a0 :: rest) =
      { ret := .error e, argsAfter := a0 :: rest, out := [],
        handleCalls := 0, selfAfter := .handler nm ds rds parse handle } := by
  simp [Node.parse_args, h]

theorem parse_args_handler_cons_ok (nm ds rds : String)
    (parse : List String → Except PyErr (List (String × String) × List String))
    (handle : List (String × String) → List String → Except PyErr (Option Int))
    (a0 : String) (rest : List String)
    (options : List (String × String)) (remainders : List String)
    (h : parse (a0 :: rest) = .ok (options, remainders)) :
    Node.parse_args (.handler nm ds rds parse handle) (a0 :: rest) =
      { ret := handle options remainders, argsAfter := a0 :: rest, out := [],
        handleCalls := 1, selfAfter := .handler nm ds rds parse handle } := by
  simp [Node.parse_args, h]

theorem parse_args_menu_cons_found (nm ds rm : String) (cmds : List Node)
    (a0 : String) (rest : List String) (j : Nat) (c : Node)
    (hf : findIndexLoop cmds a0 = (some j, some j)) (hj : cmds[j]? = some c) :
    Node.parse_args (.menu nm ds rm cmds) (a0 :: rest) =
      { ret := (c.parse_args rest).ret, argsAfter := (c.parse_args rest).argsAfter,
        out := (c.parse_args rest).out, handleCalls := (c.parse_args rest).handleCalls,
        selfAfter := .menu nm ds rm (cmds.set j (c.parse_args rest).selfAfter) } := by
  rw [Node.parse_args.eq_def]
  simp only []
  split
  case _ val j2 heq =>
    rw [hf] at heq
    injection heq with h1 h2
    injection h1 with h1
    injection h2 with h2
    subst h1
    subst h2
    split
    case _ c2 heq2 =>
      rw [hj] at heq2
      injection heq2 with h3
      subst h3
      rfl
    case _ heq2 =>
      rw [hj] at heq2
      exact absurd heq2 (by simp)
  case _ val heq =>
    rw [hf] at heq
    exact absurd heq (by simp)
  case _ snd heq =>
    rw [hf] at heq
    exact absurd heq (by simp)

theorem parse_args_menu_cons_notfound (nm ds rm : String) (cmds : List Node)
    (a0 : String) (rest : List String)
    (hf : (findIndexLoop cmds a0).1 = none) :
    Node.parse_args (.menu nm ds rm cmds) (a0 :: rest) =
      { ret := .ok (some (-1)), argsAfter := a0 :: rest, out := [.notFound a0],
        handleCalls := 0, selfAfter := .menu nm ds rm cmds } := by
  rw [Node.parse_args.eq_def]
  simp only []
  split
  case _ val j2 heq =>
    rw [heq] at hf
    exact absurd hf (by simp)
  case _ val heq =>
    rw [heq] at hf
    exact absurd hf (by simp)
  case _ snd heq =>
    rfl

/-! ### Dispatch never mutates the tree -/

theorem parse_args_selfAfter : ∀ (node : Node) (args : List String),
    (node.parse_args args).selfAfter = node := by
  intro node args
  induction node, args using Node.parse_args.induct
  next nm ds rds parse handle =>
    rw [parse_args_handler_nil]
  next nm ds rds parse handle a0 rest e h =>
    rw [parse_args_handler_cons_error nm ds rds parse handle a0 rest e h]
  next nm ds rds parse handle a0 rest options remainders h =>
    rw [parse_args_handler_cons_ok nm ds rds parse handle a0 rest options remainders h]
  next nm ds rm cmds =>
    rw [parse_args_menu_nil]
  next nm ds rm cmds a0 rest val j hf c hj ih =>
    obtain ⟨hpair, hlt⟩ := findIndexLoop_spec a0 cmds val (by rw [hf])
    rw [hf] at hpair
    injection hpair with h1 h2
    injection h2 with h2
    subst h2
    rw [parse_args_menu_cons_found nm ds rm cmds a0 rest j c hf hj, ih,
        list_set_getElem?_self cmds j c hj]
  next nm ds rm cmds a0 rest val j hf hj =>
    exfalso
    obtain ⟨hpair, hlt⟩ := findIndexLoop_spec a0 cmds val (by rw [hf])
    rw [hf] at hpair
    injection hpair with h1 h2
    injection h2 with h2
    subst h2
    rw [List.getElem?_eq_none_iff] at hj
    omega
  next nm ds rm cmds a0 rest val hf =>
    exfalso
    obtain ⟨hpair, hlt⟩ := findIndexLoop_spec a0 cmds val (by rw [hf])
    rw [hf] at hpair
    injection hpair with h1 h2
    simp at h2
  next nm ds rm cmds a0 rest snd hf =>
    rw [parse_args_menu_cons_notfound nm ds rm cmds a0 rest (by rw [hf])]

theorem descendDepth_handler (nm ds rds : String)
    (parse : List String → Except PyErr (List (String × String) × List String))
    (handle : List (String × String) → List String → Except PyErr (Option Int))
    (args : List String) :
    (Node.handler nm ds rds parse handle).descendDepth args = 0 := by
  simp [Node.descendDepth]

theorem descendDepth_menu_nil (nm ds rm : String) (cmds : List Node) :
    (Node.menu nm ds rm cmds).descendDepth [] = 0 := by
  simp [Node.descendDepth]

theorem descendDepth_menu_cons_found (nm ds rm : String) (cmds : List Node)
    (a0 : String) (rest : List String) (j : Nat) (c : Node)
    (hf : findIndexLoop cmds a0 = (some j, some j)) (hj : cmds[j]? = some c) :
    (Node.menu nm ds rm cmds).descendDepth (a0 :: rest) = c.descendDepth rest + 1 := by
  rw [Node.descendDepth.eq_def]
  simp only [hf]
  split
  case _ c2 heq2 =>
    rw [hj] at heq2
    injection heq2 with h3
    subst h3
    rfl
  case _ heq2 =>
    rw [hj] at heq2
    exact absurd heq2 (by simp)

theorem descendDepth_menu_cons_notfound (nm ds rm : String) (cmds : List Node)
    (a0 : String) (rest : List String)
    (hf : (findIndexLoop cmds a0).1 = none) :
    (Node.menu nm ds rm cmds).descendDepth (a0 :: rest) = 0 := by
  rw [Node.descendDepth.eq_def]
  simp only []
  split <;> simp_all

/-! ### The claims -/

/-- C1: for every App given an empty token list, `parse_args` prints the
banner line, the separator and the menu listing — but it returns Python's
`None` (the method falls off without a `return`), not the exit code 0 that
`CommandMenuNode.parse_args` returns for an empty token list.  The last two
conjuncts exhibit the divergence from the claim. -/
theorem c1_app_empty_prints_banner_returns_none (app : CommandApp) :
    (app.parse_args []).out =
      [.appBanner app.description, .separator, .menuListing (menuRows app.commands)]
    ∧ (app.parse_args []).ret = .ok none
    ∧ (Node.parse_args app.asNode []).ret = .ok (some 0)
    ∧ (Except.ok (none : Option Int) : Except PyErr (Option Int)) ≠ .ok (some 0) := by
  refine ⟨rfl, rfl, ?_, by simp⟩
  rw [CommandApp.asNode, parse_args_menu_nil]

/-- C2: when the first token case-insensitively matches the `j`-th child `c`
and no earlier child matches, `CommandMenuNode.parse_args` pops the first
token and recurses into exactly that child — the `break` guarantees the loop
variable `cmd` holds the matched child — and the result is the child's result
unchanged (return value, final argument list, output and `handle_command`
invocations), with the tree left intact. -/
theorem c2_menu_first_match_recurses (nm ds rm a0 : String) (rest : List String)
    (cmds : List Node) (j : Nat) (c : Node)
    (hj : cmds[j]? = some c)
    (hmatch : pyLower c.command_name = pyLower a0)
    (hfirst : ∀ k d, k < j → cmds[k]? = some d → pyLower d.command_name ≠ pyLower a0) :
    Node.parse_args (.menu nm ds rm cmds) (a0 :: rest) =
      { ret := (c.parse_args rest).ret, argsAfter := (c.parse_args rest).argsAfter,
        out := (c.parse_args rest).out, handleCalls := (c.parse_args rest).handleCalls,
        selfAfter := .menu nm ds rm cmds } := by
  have hf := findIndexLoop_of_first_match a0 cmds j c hj hmatch hfirst
  rw [parse_args_menu_cons_found nm ds rm cmds a0 rest j c hf hj,
      parse_args_selfAfter c rest, list_set_getElem?_self cmds j c hj]

/-- Witness for C2 at a concrete input: the token `"dElEtE"` matches the
second child `"Delete"` case-insensitively (the first child does not match),
and resolution is exactly the pass-through of that child's run. -/
theorem c2_witness :
    Node.parse_args
      (.menu "root" "" "" [.menu "Other" "o" "" [], .menu "Delete" "d" "" []])
      ["dElEtE", "x"] =
      { ret := (Node.parse_args (.menu "Delete" "d" "" []) ["x"]).ret,
        argsAfter := (Node.parse_args (.menu "Delete" "d" "" []) ["x"]).argsAfter,
        out := (Node.parse_args (.menu "Delete" "d" "" []) ["x"]).out,
        handleCalls := (Node.parse_args (.menu "Delete" "d" "" []) ["x"]).handleCalls,
        selfAfter := .menu "root" "" ""
          [.menu "Other" "o" "" [], .menu "Delete" "d" "" []] } :=
  c2_menu_first_match_recurses "root" "" "" "dElEtE" ["x"]
    [.menu "Other" "o" "" [], .menu "Delete" "d" "" []] 1 (.menu "Delete" "d" "" [])
    rfl (by decide)
    (by
      intro k d hk hkd
      have hk0 : k = 0 := by omega
      subst hk0
      simp only [List.getElem?_cons_zero, Option.some.injEq] at hkd
      subst hkd
      decide)

/-- C3: when the first token matches no child case-insensitively,
`CommandMenuNode.parse_args` prints the not-found message naming the token
and returns -1, leaving the argument list and tree untouched; with zero
children the hypothesis is vacuous, so such a node always fails on a
non-empty token list. -/
theorem c3_menu_unmatched_token (nm ds rm a0 : String) (rest : List String)
    (cmds : List Node)
    (h : ∀ c ∈ cmds, pyLower c.command_name ≠ pyLower a0) :
    Node.parse_args (.menu nm ds rm cmds) (a0 :: rest) =
      { ret := .ok (some (-1)), argsAfter := a0 :: rest, out := [.notFound a0],
        handleCalls := 0, selfAfter := .menu nm ds rm cmds } :=
  parse_args_menu_cons_notfound nm ds rm cmds a0 rest (findIndexLoop_fst_none a0 cmds h)

/-- Witness for C3 at a concrete input: a childless menu node given `["x"]`
reports the token and returns -1. -/
theorem c3_witness :
    Node.parse_args (.menu "root" "" "" []) ["x"] =
      { ret := .ok (some (-1)), argsAfter := ["x"], out := [.notFound "x"],
        handleCalls := 0, selfAfter := .menu "root" "" "" [] } :=
  c3_menu_unmatched_token "root" "" "" "x" [] [] (by simp)

/-- C5: a MenuNode on an empty token list returns 0 and lists exactly every
immediate child's `(command_name, description)` pair, in insertion order. -/
theorem c5_menu_empty_lists_children (nm ds rm : String) (cmds : List Node) :
    Node.parse_args (.menu nm ds rm cmds) [] =
      { ret := .ok (some 0), argsAfter := [],
        out := [.menuListing (cmds.map fun c => (c.command_name, c.description))],
        handleCalls := 0, selfAfter := .menu nm ds rm cmds } := by
  rw [parse_args_menu_nil]
  rfl

/-- C7: dispatch never mutates the tree (`selfAfter` is the very node it
started from), so running `parse_args` a second time on the post-dispatch
tree with the same token sequence returns the same value. -/
theorem c7_two_run_determinism (node : Node) (args : List String) :
    (node.parse_args args).selfAfter = node
    ∧ ((node.parse_args args).selfAfter.parse_args args).ret = (node.parse_args args).ret := by
  refine ⟨parse_args_selfAfter node args, ?_⟩
  rw [parse_args_selfAfter node args]

/-- C9: constructing a `CommandOptionApp` always raises: its `__init__` calls
the superclass `__init__` unbound, without passing `self`, so the string
`command_name` lands in the `self` slot and Python 2 rejects the call with
`TypeError` for every argument combination. -/
theorem c9_command_option_app_init_always_fails
    (command_name description remainder_description : String) :
    CommandOptionApp.init command_name description remainder_description =
      .error .typeError := rfl

/-- C10: resolution mutates the caller's token list in place — after a
dispatch that descends `k` menu levels (one `args.pop(0)` per matched child)
the caller's list object has lost exactly its first `k` tokens, and is not
restored on return. -/
theorem c10_args_list_loses_first_k_tokens (node : Node) (args : List String) :
    (node.parse_args args).argsAfter = args.drop (node.descendDepth args) := by
  induction node, args using Node.parse_args.induct
  next nm ds rds parse handle =>
    rw [parse_args_handler_nil, descendDepth_handler]
    rfl
  next nm ds rds parse handle a0 rest e h =>
    rw [parse_args_handler_cons_error nm ds rds parse handle a0 rest e h,
        descendDepth_handler]
    rfl
  next nm ds rds parse handle a0 rest options remainders h =>
    rw [parse_args_handler_cons_ok nm ds rds parse handle a0 rest options remainders h,
        descendDepth_handler]
    rfl
  next nm ds rm cmds =>
    rw [parse_args_menu_nil, descendDepth_menu_nil]
    rfl
  next nm ds rm cmds a0 rest val j hf c hj ih =>
    obtain ⟨hpair, hlt⟩ := findIndexLoop_spec a0 cmds val (by rw [hf])
    rw [hf] at hpair
    injection hpair with h1 h2
    injection h2 with h2
    subst h2
    rw [parse_args_menu_cons_found nm ds rm cmds a0 rest j c hf hj,
        descendDepth_menu_cons_found nm ds rm cmds a0 rest j c hf hj]
    simpa using ih
  next nm ds rm cmds a0 rest val j hf hj =>
    exfalso
    obtain ⟨hpair, hlt⟩ := findIndexLoop_spec a0 cmds val (by rw [hf])
    rw [hf] at hpair
    injection hpair with h1 h2
    injection h2 with h2
    subst h2
    rw [List.getElem?_eq_none_iff] at hj
    omega
  next nm ds rm cmds a0 rest val hf =>
    exfalso
    obtain ⟨hpair, hlt⟩ := findIndexLoop_spec a0 cmds val (by rw [hf])
    rw [hf] at hpair
    injection hpair with h1 h2
    simp at h2
  next nm ds rm cmds a0 rest snd hf =>
    rw [parse_args_menu_cons_notfound nm ds rm cmds a0 rest (by rw [hf]),
        descendDepth_menu_cons_notfound nm ds rm cmds a0 rest (by rw [hf])]
    rfl

/-- C4: `CommandOptionHandler.parse_args` never calls `handle_command` on an
empty token list (it prints the usage banner and returns 0); on a non-empty
list it calls `handle_command` exactly once if and only if the external parse
succeeds, returning its result unchanged, and a parse failure is surfaced
without any invocation. -/
theorem c4_handler_invokes_handle_iff (nm ds rds : String)
    (parse : List String → Except PyErr (List (String × String) × List String))
    (handle : List (String × String) → List String → Except PyErr (Option Int))
    (args : List String) :
    (args = [] →
      Node.parse_args (.handler nm ds rds parse handle) args =
        { ret := .ok (some 0), argsAfter := [],
          out := [.usageLine rds, .separator, .optionSchemaListing],
          handleCalls := 0, selfAfter := .handler nm ds rds parse handle })
    ∧ (∀ e, args ≠ [] → parse args = .error e →
        Node.parse_args (.handler nm ds rds parse handle) args =
          { ret := .error e, argsAfter := args, out := [], handleCalls := 0,
            selfAfter := .handler nm ds rds parse handle })
    ∧ (∀ options remainders, args ≠ [] → parse args = .ok (options, remainders) →
        Node.parse_args (.handler nm ds rds parse handle) args =
          { ret := handle options remainders, argsAfter := args, out := [],
            handleCalls := 1, selfAfter := .handler nm ds rds parse handle })
    ∧ ((Node.parse_args (.handler nm ds rds parse handle) args).handleCalls = 1 ↔
        args ≠ [] ∧ ∃ options remainders, parse args = .ok (options, remainders))
    ∧ (Node.parse_args (.handler nm ds rds parse handle) args).handleCalls ≤ 1 := by
  cases args with
  | nil =>
    refine ⟨fun _ => parse_args_handler_nil nm ds rds parse handle,
            fun e hne _ => absurd rfl hne,
            fun o r hne _ => absurd rfl hne, ?_, ?_⟩
    · rw [parse_args_handler_nil]
      simp
    · rw [parse_args_handler_nil]
      simp
  | cons a0 rest =>
    cases hp : parse (a0 :: rest) with
    | error e =>
      refine ⟨fun h => by simp at h, fun e2 _ hpe => ?_,
              fun o r _ hpo => ?_, ?_, ?_⟩
      · cases hpe
        exact parse_args_handler_cons_error nm ds rds parse handle a0 rest e hp
      · cases hpo
      · rw [parse_args_handler_cons_error nm ds rds parse handle a0 rest e hp]
        simp
      · rw [parse_args_handler_cons_error nm ds rds parse handle a0 rest e hp]
        simp
    | ok pr =>
      obtain ⟨o, r⟩ := pr
      refine ⟨fun h => by simp at h, fun e2 _ hpe => ?_,
              fun o2 r2 _ hpo => ?_, ?_, ?_⟩
      · cases hpe
      · cases hpo
        exact parse_args_handler_cons_ok nm ds rds parse handle a0 rest o r hp
      · rw [parse_args_handler_cons_ok nm ds rds parse handle a0 rest o r hp]
        simp
      · rw [parse_args_handler_cons_ok nm ds rds parse handle a0 rest o r hp]

/-- Witness for C4 at a concrete input: a handler whose parse succeeds runs
`handle_command` exactly once and passes its result (exit code 7) through. -/
theorem c4_witness :
    Node.parse_args
      (.handler "p" "d" "rd" (fun _ => .ok ([("k", "v")], []))
        (fun _ _ => .ok (some 7))) ["t"] =
      { ret := .ok (some 7), argsAfter := ["t"], out := [], handleCalls := 1,
        selfAfter := .handler "p" "d" "rd" (fun _ => .ok ([("k", "v")], []))
          (fun _ _ => .ok (some 7)) } :=
  (c4_handler_invokes_handle_iff "p" "d" "rd" (fun _ => .ok ([("k", "v")], []))
    (fun _ _ => .ok (some 7)) ["t"]).2.2.1 [("k", "v")] [] (by simp) rfl

/-- C6: `CommandOptionHandler.__init__` runs `setup` exactly once — with an
override `f` the constructed state is `f` applied once to the freshly
initialised state (so the schema is fixed at construction) — and a concrete
leaf that fails to override `setup` hits `NotImplementedError` at
construction, while one that fails to override `handle_command` hits it on
first use (the first dispatch whose parse succeeds). -/
theorem c6_setup_once_and_abstract_methods (impl : HandlerImpl) (nm ds rs : String) :
    (impl.setup = none →
      CommandOptionHandler.init impl nm ds rs = .error .notImplemented)
    ∧ (∀ f, impl.setup = some f →
        CommandOptionHandler.init impl nm ds rs =
          .ok (f { command_name := nm, description := ds,
                   remainder_description := rs, options := [] }))
    ∧ (impl.handle_command = none →
        ∀ (parse : List String → Except PyErr (List (String × String) × List String))
          (args : List String) options remainders,
          args ≠ [] → parse args = .ok (options, remainders) →
          (Node.parse_args (.handler nm ds rs parse impl.handleEff) args).ret =
            .error .notImplemented) := by
  refine ⟨?_, ?_, ?_⟩
  · intro h
    simp [CommandOptionHandler.init, h]
  · intro f h
    simp [CommandOptionHandler.init, h]
  · intro h parse args o r hne hok
    cases args with
    | nil => exact absurd rfl hne
    | cons a0 rest =>
      rw [parse_args_handler_cons_ok nm ds rs parse impl.handleEff a0 rest o r hok]
      simp [HandlerImpl.handleEff, h, CommandOptionHandler.handle_command_base]

/-- Witness for C6 at concrete inputs: a subclass overriding nothing fails at
construction; `CommandPrettyCommand`'s construction applies its `setup` once;
a subclass overriding only `setup` raises on its first dispatched command. -/
theorem c6_witness :
    CommandOptionHandler.init { setup := none, handle_command := none } "cmd" "d" "r" =
      .error .notImplemented
    ∧ CommandOptionHandler.init prettyImpl "pretty"
        "This command is meant to look pretty." "remainders description here." =
        .ok (prettySetup
          { command_name := "pretty", description := "This command is meant to look pretty.",
            remainder_description := "remainders description here.", options := [] })
    ∧ (Node.parse_args
        (.handler "cmd" "d" "r" (fun a => .ok ([], a))
          (HandlerImpl.handleEff { setup := some id, handle_command := none }))
        ["x"]).ret = .error .notImplemented :=
  ⟨(c6_setup_once_and_abstract_methods
      { setup := none, handle_command := none } "cmd" "d" "r").1 rfl,
   (c6_setup_once_and_abstract_methods prettyImpl "pretty"
      "This command is meant to look pretty." "remainders description here.").2.1
      prettySetup rfl,
   (c6_setup_once_and_abstract_methods
      { setup := some id, handle_command := none } "cmd" "d" "r").2.2 rfl
      (fun a => .ok ([], a)) ["x"] [] ["x"] (by simp) rfl⟩

/-- C8: dispatching `["delete", "level5", "pretty"]` on the `__main__` tree
descends through `"delete"` and `"level5"`, reaches the `"pretty"` leaf with
zero remaining tokens (the shared args list is fully consumed and
`handle_command` is never invoked), prints the leaf's usage banner, and
returns 0 — whatever the external parsing engine `parse` may be. -/
theorem c8_end_to_end_pretty
    (parse : List String → Except PyErr (List (String × String) × List String)) :
    ((exampleApp parse).parse_args ["delete", "level5", "pretty"]).ret = .ok (some 0)
    ∧ ((exampleApp parse).parse_args ["delete", "level5", "pretty"]).argsAfter = []
    ∧ ((exampleApp parse).parse_args ["delete", "level5", "pretty"]).out =
        [.usageLine "remainders description here.", .separator, .optionSchemaListing]
    ∧ ((exampleApp parse).parse_args ["delete", "level5", "pretty"]).handleCalls = 0
    ∧ ((exampleApp parse).parse_args ["delete", "level5", "pretty"]).selfAfter =
        (exampleApp parse).asNode := by
  have h0 : findIndexLoop [exampleHandler, exampleHandler2, exampleHandler3 parse]
      "delete" = (some 2, some 2) := by
    simp [findIndexLoop, exampleHandler, exampleHandler2, exampleHandler3,
          Node.command_name,
          show pyLower "a" ≠ pyLower "delete" from by decide,
          show pyLower "b" ≠ pyLower "delete" from by decide]
  have h1 : findIndexLoop [exampleHandler4, exampleHandler5 parse] "level5" =
      (some 1, some 1) := by
    simp [findIndexLoop, exampleHandler4, exampleHandler5, Node.command_name,
          show pyLower "level4" ≠ pyLower "level5" from by decide]
  have h2 : findIndexLoop [prettyNode parse] "pretty" = (some 0, some 0) := by
    simp [findIndexLoop, prettyNode, Node.command_name]
  have e0 : (exampleApp parse).parse_args ["delete", "level5", "pretty"] =
      Node.parse_args (.menu "" "This is a simple taste of a command line app." ""
        [exampleHandler, exampleHandler2, exampleHandler3 parse])
        ["delete", "level5", "pretty"] := rfl
  have s0 := parse_args_menu_cons_found ""
      "This is a simple taste of a command line app." ""
      [exampleHandler, exampleHandler2, exampleHandler3 parse] "delete"
      ["level5", "pretty"] 2 (exampleHandler3 parse) h0 rfl
  have s1 : Node.parse_args (exampleHandler3 parse) ["level5", "pretty"] =
      { ret := (Node.parse_args (exampleHandler5 parse) ["pretty"]).ret,
        argsAfter := (Node.parse_args (exampleHandler5 parse) ["pretty"]).argsAfter,
        out := (Node.parse_args (exampleHandler5 parse) ["pretty"]).out,
        handleCalls := (Node.parse_args (exampleHandler5 parse) ["pretty"]).handleCalls,
        selfAfter := .menu "delete" "does what delete does." ""
          ([exampleHandler4, exampleHandler5 parse].set 1
            (Node.parse_args (exampleHandler5 parse) ["pretty"]).selfAfter) } :=
    parse_args_menu_cons_found "delete" "does what delete does." ""
      [exampleHandler4, exampleHandler5 parse] "level5" ["pretty"] 1
      (exampleHandler5 parse) h1 rfl
  have s2 : Node.parse_args (exampleHandler5 parse) ["pretty"] =
      { ret := (Node.parse_args (prettyNode parse) []).ret,
        argsAfter := (Node.parse_args (prettyNode parse) []).argsAfter,
        out := (Node.parse_args (prettyNode parse) []).out,
        handleCalls := (Node.parse_args (prettyNode parse) []).handleCalls,
        selfAfter := .menu "level5" "skips to level4" ""
          ([prettyNode parse].set 0
            (Node.parse_args (prettyNode parse) []).selfAfter) } :=
    parse_args_menu_cons_found "level5" "skips to level4" ""
      [prettyNode parse] "pretty" [] 0 (prettyNode parse) h2 rfl
  have s3 : Node.parse_args (prettyNode parse) [] =
      { ret := .ok (some 0), argsAfter := [],
        out := [.usageLine "remainders description here.", .separator,
                .optionSchemaListing],
        handleCalls := 0, selfAfter := prettyNode parse } :=
    parse_args_handler_nil "pretty" "This command is meant to look pretty."
      "remainders description here." parse (fun _ _ => .ok (some 0))
  refine ⟨?_, ?_, ?_, ?_, ?_⟩
  · rw [e0, s0, s1, s2, s3]
  · rw [e0, s0, s1, s2, s3]
  · rw [e0, s0, s1, s2, s3]
  · rw [e0, s0, s1, s2, s3]
  · rw [e0]
    exact parse_args_selfAfter _ _
